import Mathlib

/-!
Shallow embedding of `src/Python/server/yolo_detector.py`: a Flask server
with a `/detect` endpoint (per-channel admission control with a busy flag,
image decode, YOLO inference, annotation, frame publication), a
`/video_feed` streaming loop (`generate_frames`), and a `/stats` endpoint
reporting the size of the `unique_rock_ids` set.

Modelling conventions:
- Python `bytes` values are `List Nat`; a decoded image is `Img`.
- The two module-level dicts `latest_frames = {i: None for i in range(5)}`
  and `camera_locks = {i: False for i in range(5)}` are modelled as total
  functions `Int → Option (List Nat)` and `Int → Bool`.  The code only
  reads them through `dict.get(camera_id, default)` (or writes arbitrary
  integer keys), so a total function with the dict's default as the value
  outside the stored keys is an exact model of every access the code makes.
- External library calls (`cv2.imdecode`, `model.predict`, `cv2.imencode`,
  the cv2 drawing inside `draw_boxes`) are parameters of `detect`; a call
  that can raise a Python exception is an `Except String` result, and
  `cv2.imdecode` returning `None` is `Option`.
- `random.randint(a, b)` (inclusive bounds) is modelled by `randint` fed
  from a stream `rs : Nat → Nat` of raw random draws.
- Python floats appear only in detection confidences and box coordinates,
  which no claim inspects; they are carried as `Int` values.
-/

/-- `MAX_CAMERAS = 5` (line 15 of the source). -/
def MAX_CAMERAS : Int := 5

/-- A decoded image (result of `cv2.imdecode`), abstracted as raw data. -/
abbrev Img := List Nat

/-- One raw box as produced by the engine: confidence and center-based
`xywh` coordinates (floats abstracted as integers). -/
structure BoxRaw where
  conf : Int
  x : Int
  y : Int
  w : Int
  h : Int
deriving DecidableEq, Repr

/-- One entry of the `detections` list built in `detect` (lines 92-96):
`{"rock_id": ..., "confidence": ..., "box": [x - w/2, y - h/2, w, h]}`. -/
structure Detection where
  rock_id : Nat
  confidence : Int
  box : Int × Int × Int × Int
deriving DecidableEq, Repr

/-- Model of `random.randint(lo, hi)` from the Python standard library:
a uniformly random integer with INCLUSIVE bounds, `lo ≤ result ≤ hi`,
driven here by a raw draw `r`. -/
def randint (lo hi : Nat) (r : Nat) : Nat :=
  lo + r % (hi - lo + 1)

/-- The module-level mutable state of the server (lines 17-23):
`latest_frames`, `camera_locks`, `unique_rock_ids`. -/
structure ServerState where
  latest_frames : Int → Option (List Nat)
  camera_locks : Int → Bool
  unique_rock_ids : Finset Nat

/-- The initial state built at import time (lines 19-23): every frame slot
`None`, every lock `False`, and the id set empty.  Keys outside
`range(MAX_CAMERAS)` are absent from the dicts, which the code's
`dict.get` accesses read as the same defaults. -/
def initState : ServerState :=
  { latest_frames := fun _ => none
    camera_locks := fun _ => false
    unique_rock_ids := ∅ }

/-- Pointwise update of a lock table, modelling `camera_locks[cid] = b`. -/
def setLock (locks : Int → Bool) (cid : Int) (b : Bool) : Int → Bool :=
  fun c => if c = cid then b else locks c

/-- Pointwise update of the frame table, modelling
`latest_frames[cid] = bytes`. -/
def setFrame (frames : Int → Option (List Nat)) (cid : Int) (bytes : List Nat) :
    Int → Option (List Nat) :=
  fun c => if c = cid then some bytes else frames c

/-- An inbound `POST /detect` request.  `camera_id = none` models a form
field that is missing or not parseable by `int(...)` (which raises);
`file = none` models a missing `file` part (`request.files['file']`
raises `KeyError`). -/
structure DetectRequest where
  camera_id : Option Int
  file : Option (List Nat)

/-- The four response shapes of `detect`:
`200 {"status":"success","rocks_found":n}`,
`429 {"status":"dropped","message":"Busy"}`,
`400 {"status":"error"}`, and
`500 {"status":"error","message":msg}` from the `except` clause. -/
inductive DetectResponse where
  | success (rocks_found : Nat)
  | dropped
  | errorBadImage
  | errorException (msg : String)
deriving DecidableEq, Repr

/-- HTTP status code of each response (lines 67, 78, 105-108, 114). -/
def statusCode : DetectResponse → Nat
  | .success _ => 200
  | .dropped => 429
  | .errorBadImage => 400
  | .errorException _ => 500

/-- `unique_rock_ids.add(rock_id)` (line 89): insertion into the shared
id set. -/
def record (ids : Finset Nat) (rock_id : Nat) : Finset Nat :=
  insert rock_id ids

/-- `len(unique_rock_ids)`: the size query on the id set, as used by
`stats` (line 144). -/
def count (ids : Finset Nat) : Nat :=
  ids.card

/-- Builds the `detections` list from the engine results (lines 84-96):
the results are iterated in order (`for result in results: for box in
result.boxes:`); the k-th box gets `rock_id = random.randint(1000, 9999)`
from the k-th raw draw, confidence `box.conf[0]`, and top-left box
`[x - w/2, y - h/2, w, h]`. -/
def mkDetections (rs : Nat → Nat) (results : List (List BoxRaw)) : List Detection :=
  results.flatten.enum.map fun kb =>
    { rock_id := randint 1000 9999 (rs kb.1)
      confidence := kb.2.conf
      box := (kb.2.x - kb.2.w / 2, kb.2.y - kb.2.h / 2, kb.2.w, kb.2.h) }

/-- The `detect` view function (lines 59-114), parameterised over the
external collaborators:
`imdecode` = `cv2.imdecode` (returns `None` on a bad image),
`predict` = `model.predict` (may raise),
`imencode` = `cv2.imencode(...)` followed by `.tobytes()` (may raise),
`draw_boxes` = the cv2-based annotation renderer of lines 35-52,
`rs` = the stream of raw `random` draws.

Control flow mirrors the source exactly:
1. `camera_id = int(request.form.get('camera_id'))`; a raise here is
   caught by the `except` clause with `camera_id` unbound, so no lock is
   touched and a 500 is returned.
2. `if camera_locks.get(camera_id, False): return dropped, 429`.
3. `camera_locks[camera_id] = True`.
4. Read the file (`KeyError` → except clause, lock cleared, 500) and
   decode it (`None` → lock cleared, 400).
5. Run the engine (raise → except clause, lock cleared, 500); add each
   detection's `rock_id` to `unique_rock_ids` while building `detections`.
6. Annotate and encode (raise → except clause, lock cleared, 500; note
   the ids of step 5 are already recorded), then
   `latest_frames[camera_id] = buffer.tobytes()`.
7. `camera_locks[camera_id] = False`; return success with
   `rocks_found = len(detections)`. -/
def detect
    (imdecode : List Nat → Option Img)
    (predict : Img → Except String (List (List BoxRaw)))
    (imencode : Img → Except String (List Nat))
    (draw_boxes : Img → List Detection → Img)
    (rs : Nat → Nat)
    (req : DetectRequest) (s : ServerState) : DetectResponse × ServerState :=
  match req.camera_id with
  | none => (.errorException "invalid camera_id", s)
  | some camera_id =>
    if s.camera_locks camera_id then
      (.dropped, s)
    else
      let s1 := { s with camera_locks := setLock s.camera_locks camera_id true }
      match req.file with
      | none =>
          (.errorException "file",
            { s1 with camera_locks := setLock s1.camera_locks camera_id false })
      | some fileBytes =>
        match imdecode fileBytes with
        | none =>
            (.errorBadImage,
              { s1 with camera_locks := setLock s1.camera_locks camera_id false })
        | some img =>
          match predict img with
          | .error msg =>
              (.errorException msg,
                { s1 with camera_locks := setLock s1.camera_locks camera_id false })
          | .ok results =>
            let detections := mkDetections rs results
            let newIds := detections.foldl (fun acc d => record acc d.rock_id) s1.unique_rock_ids
            let s2 := { s1 with unique_rock_ids := newIds }
            match imencode (draw_boxes img detections) with
            | .error msg =>
                (.errorException msg,
                  { s2 with camera_locks := setLock s2.camera_locks camera_id false })
            | .ok buf =>
              let s3 := { s2 with latest_frames := setFrame s2.latest_frames camera_id buf }
              let s4 := { s3 with camera_locks := setLock s3.camera_locks camera_id false }
              (.success detections.length, s4)

/-- One emission of the `generate_frames` loop body (lines 118-133):
either the stored frame bytes or a synthesized placeholder. -/
inductive StreamChunk where
  | frameData (bytes : List Nat)
  | placeholder
deriving DecidableEq, Repr

/-- One iteration of `generate_frames(camera_id)` (lines 118-133):
`frame_bytes = latest_frames.get(camera_id)`; `if frame_bytes:` is Python
truthiness, so both a missing slot (`None`) and empty bytes fall to the
placeholder branch, which synthesizes a fresh black "Waiting for
Stream..." image. -/
def generate_frames_step (s : ServerState) (camera_id : Int) : StreamChunk :=
  match s.latest_frames camera_id with
  | some bs => if bs = [] then .placeholder else .frameData bs
  | none => .placeholder

/-- The `stats` view function (lines 141-144):
`{"total_rocks": len(unique_rock_ids)}`. -/
def stats (s : ServerState) : Nat :=
  count s.unique_rock_ids

/-- The two racing threads in the admission-control model. -/
inductive Tid where
  | a
  | b
deriving DecidableEq, Repr

/-- State of two concurrent executions of the admission window of `detect`
(lines 66-69): the shared `camera_locks[cid]` value for one fixed channel,
plus, per thread, the value its `camera_locks.get(camera_id, False)` read
returned (`none` while the read has not executed yet). -/
structure RaceState where
  lock : Bool
  obsA : Option Bool
  obsB : Option Bool
deriving DecidableEq, Repr

/-- Both threads about to run `detect` on the same idle channel. -/
def raceInit : RaceState :=
  { lock := false, obsA := none, obsB := none }

/-- One scheduler step: the chosen thread executes its next atomic action
of lines 66-69.  The first action is the read
`camera_locks.get(camera_id, False)`; if it observed `False` the next
action is the write `camera_locks[camera_id] = True` (the thread then
proceeds into inference); if it observed `True` the thread has already
returned the 429 dropped response and does nothing more. -/
def raceStep (s : RaceState) : Tid → RaceState
  | .a =>
      match s.obsA with
      | none => { s with obsA := some s.lock }
      | some false => { s with lock := true }
      | some true => s
  | .b =>
      match s.obsB with
      | none => { s with obsB := some s.lock }
      | some false => { s with lock := true }
      | some true => s

/-- Run a schedule (an interleaving of the two threads) from `raceInit`. -/
def raceRun (sched : List Tid) : RaceState :=
  sched.foldl raceStep raceInit

/-- A thread proceeds to inference exactly when its busy-flag read
observed `False` (line 66). -/
def proceeds (obs : Option Bool) : Prop :=
  obs = some false

/-! Concrete collaborator instances, used to evaluate the model on
concrete inputs (counterexamples and witnesses). -/

/-- A decoder that accepts every byte string (the image is the bytes). -/
def idImdecode : List Nat → Option Img := fun bs => some bs

/-- A decoder that rejects every byte string (`cv2.imdecode` → `None`). -/
def noImdecode : List Nat → Option Img := fun _ => none

/-- An engine run returning no boxes. -/
def noBoxes : Img → Except String (List (List BoxRaw)) := fun _ => Except.ok []

/-- An engine run returning one result containing one box. -/
def oneBox : Img → Except String (List (List BoxRaw)) :=
  fun _ => Except.ok [[{ conf := 7, x := 10, y := 20, w := 30, h := 40 }]]

/-- An engine that raises on every input. -/
def failPredict : Img → Except String (List (List BoxRaw)) :=
  fun _ => Except.error "engine failure"

/-- An encoder producing a fixed non-empty byte string. -/
def constEncode : Img → Except String (List Nat) := fun _ => Except.ok [255, 216]

/-- A renderer for concrete runs (annotation content is irrelevant). -/
def idAnnotate : Img → List Detection → Img := fun i _ => i

/-- A constant stream of raw random draws. -/
def zeroRs : Nat → Nat := fun _ => 0

/-- A state in which channel 0 is busy and everything else is initial. -/
def busyState : ServerState :=
  { initState with camera_locks := setLock initState.camera_locks 0 true }

/-! Helper lemmas shared across the claim theorems. -/

theorem setLock_self (locks : Int → Bool) (cid : Int) (b : Bool) :
    setLock locks cid b cid = b := by
  simp [setLock]

theorem setLock_other (locks : Int → Bool) (cid c : Int) (b : Bool) (h : c ≠ cid) :
    setLock locks cid b c = locks c := by
  simp [setLock, h]

theorem setFrame_self (frames : Int → Option (List Nat)) (cid : Int) (bytes : List Nat) :
    setFrame frames cid bytes cid = some bytes := by
  simp [setFrame]

theorem setFrame_other (frames : Int → Option (List Nat)) (cid c : Int) (bytes : List Nat)
    (h : c ≠ cid) : setFrame frames cid bytes c = frames c := by
  simp [setFrame, h]

theorem randint_mem_Icc (r : Nat) : randint 1000 9999 r ∈ Finset.Icc 1000 9999 := by
  simp only [randint, Finset.mem_Icc]
  omega

theorem mkDetections_length (rs : Nat → Nat) (results : List (List BoxRaw)) :
    (mkDetections rs results).length = results.flatten.length := by
  simp [mkDetections]

theorem mkDetections_rock_id_mem (rs : Nat → Nat) (results : List (List BoxRaw))
    (d : Detection) (hd : d ∈ mkDetections rs results) :
    d.rock_id ∈ Finset.Icc 1000 9999 := by
  obtain ⟨kb, _, rfl⟩ := List.mem_map.mp hd
  exact randint_mem_Icc (rs kb.1)

theorem foldl_record_mem_of_mem (l : List Detection) (acc : Finset Nat) (x : Nat)
    (hx : x ∈ acc) : x ∈ l.foldl (fun a d => record a d.rock_id) acc := by
  induction l generalizing acc with
  | nil => simpa
  | cons a t ih =>
      exact ih (record acc a.rock_id) (Finset.mem_insert_of_mem hx)

theorem foldl_record_mem (l : List Detection) (acc : Finset Nat) (d : Detection)
    (hd : d ∈ l) : d.rock_id ∈ l.foldl (fun a d => record a d.rock_id) acc := by
  induction l generalizing acc with
  | nil => cases hd
  | cons a t ih =>
      rcases List.mem_cons.mp hd with h | h
      · subst h
        exact foldl_record_mem_of_mem t (record acc d.rock_id) d.rock_id
          (Finset.mem_insert_self _ _)
      · exact ih (record acc a.rock_id) h

theorem foldl_record_subset (l : List Detection) (acc t : Finset Nat)
    (hacc : acc ⊆ t) (hl : ∀ d ∈ l, d.rock_id ∈ t) :
    l.foldl (fun a d => record a d.rock_id) acc ⊆ t := by
  induction l generalizing acc with
  | nil => simpa
  | cons a tl ih =>
      refine ih (record acc a.rock_id) ?_ (fun d hd => hl d (List.mem_cons_of_mem a hd))
      exact Finset.insert_subset (hl a (List.mem_cons_self a tl)) hacc

theorem foldl_record_card (l : List Nat) (acc : Finset Nat)
    (hnd : l.Nodup) (hdisj : ∀ x ∈ l, x ∉ acc) :
    (l.foldl record acc).card = acc.card + l.length := by
  induction l generalizing acc with
  | nil => simp
  | cons a t ih =>
      have hna : a ∉ acc := hdisj a (List.mem_cons_self a t)
      have hrec : (record acc a).card = acc.card + 1 :=
        Finset.card_insert_of_not_mem hna
      have hdisj2 : ∀ x ∈ t, x ∉ record acc a := by
        intro x hx
        have hxa : x ≠ a := by
          intro h
          exact (List.nodup_cons.mp hnd).1 (h ▸ hx)
        have hxacc : x ∉ acc := hdisj x (List.mem_cons_of_mem a hx)
        simp [record, hxa, hxacc]
      rw [List.foldl_cons, ih (record acc a) (List.nodup_cons.mp hnd).2 hdisj2, hrec]
      simp only [List.length_cons]
      omega

/-- Full evaluation of `detect` along the success path (lines 62-108). -/
theorem detect_success_run
    (imdecode : List Nat → Option Img)
    (predict : Img → Except String (List (List BoxRaw)))
    (imencode : Img → Except String (List Nat))
    (draw_boxes : Img → List Detection → Img)
    (rs : Nat → Nat)
    (req : DetectRequest) (s : ServerState) (cid : Int) (fb : List Nat) (img : Img)
    (results : List (List BoxRaw)) (buf : List Nat)
    (hcid : req.camera_id = some cid)
    (hidle : s.camera_locks cid = false)
    (hfile : req.file = some fb)
    (hdec : imdecode fb = some img)
    (hpred : predict img = Except.ok results)
    (henc : imencode (draw_boxes img (mkDetections rs results)) = Except.ok buf) :
    detect imdecode predict imencode draw_boxes rs req s =
      (DetectResponse.success (mkDetections rs results).length,
       { latest_frames := setFrame s.latest_frames cid buf
         camera_locks := setLock (setLock s.camera_locks cid true) cid false
         unique_rock_ids :=
           (mkDetections rs results).foldl (fun acc d => record acc d.rock_id)
             s.unique_rock_ids }) := by
  simp only [detect, hcid, hidle, hfile, hdec, hpred, henc, Bool.false_eq_true,
    if_false]

/-- Whenever `detect` takes the busy flag (request parsed to an idle
channel), the flag is back to `False` in the final state, on every path. -/
theorem detect_lock_cleared
    (imdecode : List Nat → Option Img)
    (predict : Img → Except String (List (List BoxRaw)))
    (imencode : Img → Except String (List Nat))
    (draw_boxes : Img → List Detection → Img)
    (rs : Nat → Nat)
    (req : DetectRequest) (s : ServerState) (cid : Int)
    (hcid : req.camera_id = some cid)
    (hidle : s.camera_locks cid = false) :
    (detect imdecode predict imencode draw_boxes rs req s).2.camera_locks cid = false := by
  simp only [detect, hcid, hidle, Bool.false_eq_true, if_false]
  cases hf : req.file with
  | none => simp [hf, setLock]
  | some fb =>
      cases hd : imdecode fb with
      | none => simp [hf, hd, setLock]
      | some img =>
          cases hp : predict img with
          | error msg => simp [hf, hd, hp, setLock]
          | ok results =>
              cases he : imencode (draw_boxes img (mkDetections rs results)) with
              | error msg => simp [hf, hd, hp, he, setLock]
              | ok buf => simp [hf, hd, hp, he, setLock]

/-- A `detect` call on a channel whose busy flag is `False` never returns
the dropped response: every branch other than line 67 produces a success
or error response. -/
theorem detect_ne_dropped
    (imdecode : List Nat → Option Img)
    (predict : Img → Except String (List (List BoxRaw)))
    (imencode : Img → Except String (List Nat))
    (draw_boxes : Img → List Detection → Img)
    (rs : Nat → Nat)
    (req : DetectRequest) (s : ServerState) (cid : Int)
    (hcid : req.camera_id = some cid)
    (hidle : s.camera_locks cid = false) :
    (detect imdecode predict imencode draw_boxes rs req s).1 ≠ DetectResponse.dropped := by
  simp only [detect, hcid, hidle, Bool.false_eq_true, if_false]
  cases hf : req.file with
  | none => simp [hf]
  | some fb =>
      cases hd : imdecode fb with
      | none => simp [hf, hd]
      | some img =>
          cases hp : predict img with
          | error msg => simp [hf, hd, hp]
          | ok results =>
              cases he : imencode (draw_boxes img (mkDetections rs results)) with
              | error msg => simp [hf, hd, hp, he]
              | ok buf => simp [hf, hd, hp, he]

/-- The final id set of any `detect` call is contained in the initial id
set together with the `randint(1000, 9999)` range: ids are only ever added
by line 89, and only with values drawn by line 88. -/
theorem detect_ids_subset
    (imdecode : List Nat → Option Img)
    (predict : Img → Except String (List (List BoxRaw)))
    (imencode : Img → Except String (List Nat))
    (draw_boxes : Img → List Detection → Img)
    (rs : Nat → Nat)
    (req : DetectRequest) (s : ServerState) :
    (detect imdecode predict imencode draw_boxes rs req s).2.unique_rock_ids ⊆
      s.unique_rock_ids ∪ Finset.Icc 1000 9999 := by
  cases hc : req.camera_id with
  | none => simp [detect, hc, Finset.subset_union_left]
  | some cid =>
      cases hb : s.camera_locks cid with
      | true => simp [detect, hc, hb, Finset.subset_union_left]
      | false =>
          simp only [detect, hc, hb, Bool.false_eq_true, if_false]
          cases hf : req.file with
          | none =>
              simp only [hf]
              exact Finset.subset_union_left
          | some fb =>
              cases hd : imdecode fb with
              | none =>
                  simp only [hf, hd]
                  exact Finset.subset_union_left
              | some img =>
                  cases hp : predict img with
                  | error msg =>
                      simp only [hf, hd, hp]
                      exact Finset.subset_union_left
                  | ok results =>
                      have hfold : (mkDetections rs results).foldl
                          (fun acc d => record acc d.rock_id) s.unique_rock_ids ⊆
                          s.unique_rock_ids ∪ Finset.Icc 1000 9999 := by
                        refine foldl_record_subset _ _ _ Finset.subset_union_left ?_
                        intro d hd
                        exact Finset.mem_union_right _ (mkDetections_rock_id_mem rs results d hd)
                      cases he : imencode (draw_boxes img (mkDetections rs results)) with
                      | error msg =>
                          simp only [hf, hd, hp, he]
                          exact hfold
                      | ok buf =>
                          simp only [hf, hd, hp, he]
                          exact hfold

/-- Invariant of the race model: once one thread has observed `False` and
set the flag, the flag stays set and the other thread can never observe
`False` (the model's only write sets the flag to `True`). -/
theorem raceStep_preserves (s : RaceState) (t : Tid)
    (h : s.lock = true ∧ s.obsA = some false ∧ s.obsB ≠ some false) :
    (raceStep s t).lock = true ∧ (raceStep s t).obsA = some false ∧
      (raceStep s t).obsB ≠ some false := by
  obtain ⟨h1, h2, h3⟩ := h
  cases t with
  | a =>
      simp [raceStep, h2, h3]
  | b =>
      cases hB : s.obsB with
      | none =>
          simp only [raceStep, hB]
          refine ⟨h1, h2, ?_⟩
          rw [h1]
          simp
      | some v =>
          cases v with
          | false => exact absurd hB h3
          | true =>
              simp only [raceStep, hB]
              exact ⟨h1, h2, by simp [hB]⟩

/-- The race-model invariant is preserved by any remaining schedule. -/
theorem raceInv_fold (l : List Tid) (s : RaceState)
    (h : s.lock = true ∧ s.obsA = some false ∧ s.obsB ≠ some false) :
    (l.foldl raceStep s).lock = true ∧ (l.foldl raceStep s).obsA = some false ∧
      (l.foldl raceStep s).obsB ≠ some false := by
  induction l generalizing s with
  | nil => simpa
  | cons t tl ih => exact ih (raceStep s t) (raceStep_preserves s t h)

/-! Claim theorems. -/

/-- C2: every `submit` (`POST /detect`) call that sets the channel's busy
flag (the request parsed to a channel id whose flag was `False`) leaves
the flag `False` when it returns, on every return path — success, decode
failure, missing file, or engine/encode failure — so a follow-up submit
on the same channel is never dropped. -/
theorem C2_busy_released
    (imdecode : List Nat → Option Img)
    (predict : Img → Except String (List (List BoxRaw)))
    (imencode : Img → Except String (List Nat))
    (draw_boxes : Img → List Detection → Img)
    (rs : Nat → Nat)
    (req : DetectRequest) (s : ServerState) (cid : Int)
    (hcid : req.camera_id = some cid)
    (hidle : s.camera_locks cid = false) :
    (detect imdecode predict imencode draw_boxes rs req s).2.camera_locks cid = false ∧
    ∀ req2 : DetectRequest, req2.camera_id = some cid →
      (detect imdecode predict imencode draw_boxes rs req2
          (detect imdecode predict imencode draw_boxes rs req s).2).1 ≠
        DetectResponse.dropped := by
  have h1 := detect_lock_cleared imdecode predict imencode draw_boxes rs req s cid hcid hidle
  exact ⟨h1, fun req2 h2 =>
    detect_ne_dropped imdecode predict imencode draw_boxes rs req2 _ cid h2 h1⟩

theorem C2_witness :
    initState.camera_locks 0 = false ∧
    (detect idImdecode failPredict constEncode idAnnotate zeroRs
        ⟨some 0, some [1]⟩ initState).2.camera_locks 0 = false :=
  ⟨rfl, (C2_busy_released idImdecode failPredict constEncode idAnnotate zeroRs
      ⟨some 0, some [1]⟩ initState 0 rfl rfl).1⟩

/-- C3: a `submit` (`POST /detect`) on a channel whose busy flag is `True`
returns the 429 dropped response with the state completely unchanged.  The
equation holds for arbitrary `imdecode`/`predict`/`imencode`
collaborators, i.e. the dropped result is produced without invoking the
decoder or the engine and without waiting on the in-progress work. -/
theorem C3_busy_dropped
    (imdecode : List Nat → Option Img)
    (predict : Img → Except String (List (List BoxRaw)))
    (imencode : Img → Except String (List Nat))
    (draw_boxes : Img → List Detection → Img)
    (rs : Nat → Nat)
    (req : DetectRequest) (s : ServerState) (cid : Int)
    (hcid : req.camera_id = some cid)
    (hbusy : s.camera_locks cid = true) :
    detect imdecode predict imencode draw_boxes rs req s = (DetectResponse.dropped, s) ∧
    statusCode (detect imdecode predict imencode draw_boxes rs req s).1 = 429 := by
  have h : detect imdecode predict imencode draw_boxes rs req s =
      (DetectResponse.dropped, s) := by
    simp [detect, hcid, hbusy]
  exact ⟨h, by rw [h]; rfl⟩

theorem C3_witness :
    busyState.camera_locks 0 = true ∧
    detect idImdecode oneBox constEncode idAnnotate zeroRs
        ⟨some 0, some [1]⟩ busyState = (DetectResponse.dropped, busyState) :=
  ⟨rfl, (C3_busy_dropped idImdecode oneBox constEncode idAnnotate zeroRs
      ⟨some 0, some [1]⟩ busyState 0 rfl rfl).1⟩

/-- C6: for a channel whose frame slot is absent (including out-of-range
ids), one iteration of the `generate_frames` loop emits the synthesized
placeholder — never an error and never real data — and `stats`
(`GET /stats`) is a total function returning the identity count, which is
zero when the set is empty. -/
theorem C6_placeholder_and_stats (s : ServerState) (cid : Int)
    (habs : s.latest_frames cid = none) :
    generate_frames_step s cid = StreamChunk.placeholder ∧
    stats s = count s.unique_rock_ids ∧
    (s.unique_rock_ids = ∅ → stats s = 0) := by
  refine ⟨?_, rfl, fun h => ?_⟩
  · simp [generate_frames_step, habs]
  · simp [stats, count, h]

theorem C6_witness :
    initState.latest_frames 7 = none ∧
    generate_frames_step initState 7 = StreamChunk.placeholder ∧
    stats initState = 0 := by
  have h := C6_placeholder_and_stats initState 7 rfl
  exact ⟨rfl, h.1, h.2.2 rfl⟩

/-- C8: the Identity Tracker (`unique_rock_ids` with `record` = `set.add`
and `count` = `len`): recording `N` distinct ids into the empty set gives
`count = N`; recording an id a second time leaves the set — hence the
count — unchanged, so two records of one fresh id increase the count by
exactly 1; and `count` is by definition the cardinality of the id set. -/
theorem C8_identity_tracker (l : List Nat) (hl : l.Nodup) (ids : Finset Nat) (i : Nat)
    (hni : i ∉ ids) :
    count (l.foldl record ∅) = l.length ∧
    record (record ids i) i = record ids i ∧
    count (record (record ids i) i) = count ids + 1 ∧
    (∀ t : Finset Nat, count t = t.card) := by
  refine ⟨?_, ?_, ?_, fun t => rfl⟩
  · have h := foldl_record_card l ∅ hl (by simp)
    simpa [count] using h
  · simp [record, Finset.insert_idem]
  · simp [record, count, Finset.insert_idem, Finset.card_insert_of_not_mem hni]

theorem C8_witness :
    [1000, 1001, 1002].Nodup ∧ (1000 : Nat) ∉ (∅ : Finset Nat) ∧
    count ([1000, 1001, 1002].foldl record ∅) = 3 ∧
    record (record ∅ 1000) 1000 = record ∅ 1000 ∧
    count (record (record ∅ 1000) 1000) = count ∅ + 1 := by
  have h := C8_identity_tracker [1000, 1001, 1002] (by decide) ∅ 1000 (by decide)
  exact ⟨by decide, by decide, h.1, h.2.1, h.2.2.1⟩

/-- C9: any `submit` (`POST /detect`) call that does not return the
success response — dropped (429), bad image (400), or exception (500) —
leaves the whole `latest_frames` table unchanged: only the success path
(line 101) writes a frame slot. -/
theorem C9_frames_unchanged
    (imdecode : List Nat → Option Img)
    (predict : Img → Except String (List (List BoxRaw)))
    (imencode : Img → Except String (List Nat))
    (draw_boxes : Img → List Detection → Img)
    (rs : Nat → Nat)
    (req : DetectRequest) (s : ServerState)
    (h : ∀ n, (detect imdecode predict imencode draw_boxes rs req s).1 ≠
      DetectResponse.success n) :
    (detect imdecode predict imencode draw_boxes rs req s).2.latest_frames =
      s.latest_frames := by
  cases hc : req.camera_id with
  | none => simp [detect, hc]
  | some cid =>
      cases hb : s.camera_locks cid with
      | true => simp [detect, hc, hb]
      | false =>
          simp only [detect, hc, hb, Bool.false_eq_true, if_false]
          cases hf : req.file with
          | none => simp [hf]
          | some fb =>
              cases hd : imdecode fb with
              | none => simp [hf, hd]
              | some img =>
                  cases hp : predict img with
                  | error msg => simp [hf, hd, hp]
                  | ok results =>
                      cases he : imencode (draw_boxes img (mkDetections rs results)) with
                      | error msg => simp [hf, hd, hp, he]
                      | ok buf =>
                          exfalso
                          apply h (mkDetections rs results).length
                          simp [detect, hc, hb, hf, hd, hp, he]

theorem C9_witness :
    (detect idImdecode oneBox constEncode idAnnotate zeroRs
        ⟨some 0, some [1]⟩ busyState).2.latest_frames = busyState.latest_frames := by
  apply C9_frames_unchanged
  intro n hn
  rw [show detect idImdecode oneBox constEncode idAnnotate zeroRs
      ⟨some 0, some [1]⟩ busyState = (DetectResponse.dropped, busyState) from rfl] at hn
  exact DetectResponse.noConfusion hn

/-- C1 counterexample: the claim — out-of-range `channel_id` is rejected
with no state change — is FALSE on the code.  `detect` has no range
check: channel id 5 (outside `[0, MAX_CAMERAS)`) on the initial state
with a decodable image returns the 200 success response, not a rejection,
and writes a frame slot for id 5 (the state changes). -/
theorem C1_counterexample :
    ¬ (0 ≤ (5 : Int) ∧ (5 : Int) < MAX_CAMERAS) ∧
    (detect idImdecode noBoxes constEncode idAnnotate zeroRs
        ⟨some 5, some [1]⟩ initState).1 = DetectResponse.success 0 ∧
    statusCode (detect idImdecode noBoxes constEncode idAnnotate zeroRs
        ⟨some 5, some [1]⟩ initState).1 ≠ 400 ∧
    (detect idImdecode noBoxes constEncode idAnnotate zeroRs
        ⟨some 5, some [1]⟩ initState).2.latest_frames 5 ≠ initState.latest_frames 5 :=
  ⟨by decide, rfl, by decide, by decide⟩

/-- C1 amended: `submit` performs no range check on `channel_id`.  A
channel id outside `[0, MAX_CAMERAS)` whose busy flag reads `False` (the
`dict.get` default for absent keys) is processed exactly like an in-range
one: with a decodable image and successful engine and encode calls it
returns success, creates a frame slot and a (cleared) busy-flag entry for
that id, and leaves every other channel's state unchanged. -/
theorem C1_amended
    (imdecode : List Nat → Option Img)
    (predict : Img → Except String (List (List BoxRaw)))
    (imencode : Img → Except String (List Nat))
    (draw_boxes : Img → List Detection → Img)
    (rs : Nat → Nat)
    (req : DetectRequest) (s : ServerState) (cid : Int) (fb : List Nat) (img : Img)
    (results : List (List BoxRaw)) (buf : List Nat)
    (hcid : req.camera_id = some cid)
    (hout : cid < 0 ∨ MAX_CAMERAS ≤ cid)
    (hidle : s.camera_locks cid = false)
    (hfile : req.file = some fb)
    (hdec : imdecode fb = some img)
    (hpred : predict img = Except.ok results)
    (henc : imencode (draw_boxes img (mkDetections rs results)) = Except.ok buf) :
    (detect imdecode predict imencode draw_boxes rs req s).1 =
      DetectResponse.success results.flatten.length ∧
    (detect imdecode predict imencode draw_boxes rs req s).2.latest_frames cid = some buf ∧
    (detect imdecode predict imencode draw_boxes rs req s).2.camera_locks cid = false ∧
    (∀ c, c ≠ cid →
      (detect imdecode predict imencode draw_boxes rs req s).2.latest_frames c =
        s.latest_frames c ∧
      (detect imdecode predict imencode draw_boxes rs req s).2.camera_locks c =
        s.camera_locks c) := by
  have hrun := detect_success_run imdecode predict imencode draw_boxes rs req s cid fb
    img results buf hcid hidle hfile hdec hpred henc
  rw [hrun]
  refine ⟨by simp [mkDetections_length], setFrame_self _ _ _, setLock_self _ _ _, ?_⟩
  intro c hc
  exact ⟨by simp [setFrame, hc], by simp [setLock, hc]⟩

theorem C1_amended_witness :
    (MAX_CAMERAS ≤ (9 : Int)) ∧
    initState.camera_locks 9 = false ∧
    (detect idImdecode oneBox constEncode idAnnotate zeroRs
        ⟨some 9, some [3]⟩ initState).1 = DetectResponse.success 1 ∧
    (detect idImdecode oneBox constEncode idAnnotate zeroRs
        ⟨some 9, some [3]⟩ initState).2.latest_frames 9 = some [255, 216] := by
  have h := C1_amended idImdecode oneBox constEncode idAnnotate zeroRs
    ⟨some 9, some [3]⟩ initState 9 [3] [3]
    [[{ conf := 7, x := 10, y := 20, w := 30, h := 40 }]] [255, 216]
    rfl (Or.inr (by decide)) rfl rfl rfl rfl rfl
  exact ⟨by decide, rfl, h.1, h.2.1⟩

/-- C4 counterexample: the claim — the busy-flag check-and-set is
race-free, so two concurrent submits on the same channel never both
observe `busy == false` — is FALSE on the code.  Lines 66-69 are a plain
read (`camera_locks.get`) followed by a separate write
(`camera_locks[camera_id] = True`); under the interleaving
read-A, read-B, write-A, write-B both calls observe `False` and both
proceed to inference. -/
theorem C4_counterexample :
    raceRun [Tid.a, Tid.b, Tid.a, Tid.b] =
      { lock := true, obsA := some false, obsB := some false } ∧
    proceeds (raceRun [Tid.a, Tid.b, Tid.a, Tid.b]).obsA ∧
    proceeds (raceRun [Tid.a, Tid.b, Tid.a, Tid.b]).obsB :=
  ⟨rfl, rfl, rfl⟩

/-- C4 amended: the check and the set of the busy flag are two separate
atomic actions, so there are interleavings in which both concurrent
submits observe `busy == false` and both proceed (see the
counterexample); mutual exclusion holds only for schedules in which one
call's read-then-write pair completes before the other call's read: after
such a prefix the first caller proceeds and the second can never observe
`False`, so exactly one of the two proceeds to inference. -/
theorem C4_amended (rest : List Tid) :
    proceeds (raceRun (Tid.a :: Tid.a :: rest)).obsA ∧
    ¬ proceeds (raceRun (Tid.a :: Tid.a :: rest)).obsB := by
  have h := raceInv_fold rest (raceStep (raceStep raceInit Tid.a) Tid.a)
    ⟨rfl, rfl, by simp [raceStep, raceInit]⟩
  exact ⟨h.2.1, h.2.2⟩

theorem C4_amended_witness :
    proceeds (raceRun [Tid.a, Tid.a, Tid.b]).obsA ∧
    ¬ proceeds (raceRun [Tid.a, Tid.a, Tid.b]).obsB :=
  C4_amended [Tid.b]

/-- C5: a `submit` (`POST /detect`) on an idle in-range channel with a
decodable image, where the engine returns a list of results and the
encoder succeeds with a non-empty buffer: the call returns the 200
success response with `rocks_found` equal to the number of detections
(the flattened box list), stores the encoded annotated image in that
channel's frame slot — so the stream read returns those non-empty,
non-placeholder bytes — and records every detection's id in the
`unique_rock_ids` set. -/
theorem C5_success_path
    (imdecode : List Nat → Option Img)
    (predict : Img → Except String (List (List BoxRaw)))
    (imencode : Img → Except String (List Nat))
    (draw_boxes : Img → List Detection → Img)
    (rs : Nat → Nat)
    (req : DetectRequest) (s : ServerState) (cid : Int) (fb : List Nat) (img : Img)
    (results : List (List BoxRaw)) (buf : List Nat)
    (hcid : req.camera_id = some cid)
    (hrange : 0 ≤ cid ∧ cid < MAX_CAMERAS)
    (hidle : s.camera_locks cid = false)
    (hfile : req.file = some fb)
    (hdec : imdecode fb = some img)
    (hpred : predict img = Except.ok results)
    (henc : imencode (draw_boxes img (mkDetections rs results)) = Except.ok buf)
    (hbuf : buf ≠ []) :
    (detect imdecode predict imencode draw_boxes rs req s).1 =
      DetectResponse.success results.flatten.length ∧
    statusCode (detect imdecode predict imencode draw_boxes rs req s).1 = 200 ∧
    (detect imdecode predict imencode draw_boxes rs req s).2.latest_frames cid = some buf ∧
    generate_frames_step (detect imdecode predict imencode draw_boxes rs req s).2 cid =
      StreamChunk.frameData buf ∧
    (∀ d ∈ mkDetections rs results,
      d.rock_id ∈ (detect imdecode predict imencode draw_boxes rs req s).2.unique_rock_ids) := by
  have hrun := detect_success_run imdecode predict imencode draw_boxes rs req s cid fb
    img results buf hcid hidle hfile hdec hpred henc
  rw [hrun]
  refine ⟨by simp [mkDetections_length], rfl, setFrame_self _ _ _, ?_, ?_⟩
  · simp [generate_frames_step, setFrame, hbuf]
  · intro d hd
    exact foldl_record_mem _ _ d hd

theorem C5_witness :
    (0 ≤ (0 : Int) ∧ (0 : Int) < MAX_CAMERAS) ∧
    (detect idImdecode oneBox constEncode idAnnotate zeroRs
        ⟨some 0, some [9]⟩ initState).1 = DetectResponse.success 1 ∧
    (detect idImdecode oneBox constEncode idAnnotate zeroRs
        ⟨some 0, some [9]⟩ initState).2.latest_frames 0 = some [255, 216] ∧
    generate_frames_step (detect idImdecode oneBox constEncode idAnnotate zeroRs
        ⟨some 0, some [9]⟩ initState).2 0 = StreamChunk.frameData [255, 216] := by
  have h := C5_success_path idImdecode oneBox constEncode idAnnotate zeroRs
    ⟨some 0, some [9]⟩ initState 0 [9] [9]
    [[{ conf := 7, x := 10, y := 20, w := 30, h := 40 }]] [255, 216]
    rfl (by decide) rfl rfl rfl rfl rfl (by decide)
  exact ⟨by decide, h.1, h.2.2.1, h.2.2.2.1⟩

/-- C7 counterexample: the claim — a missing or invalid `channel_id` form
field yields the 400 response — is FALSE on the code.  A missing/invalid
`camera_id` makes `int(request.form.get('camera_id'))` raise, which the
`except` clause turns into the 500 response, not 400. -/
theorem C7_counterexample :
    statusCode (detect idImdecode noBoxes constEncode idAnnotate zeroRs
        ⟨none, some [1]⟩ initState).1 = 500 ∧
    statusCode (detect idImdecode noBoxes constEncode idAnnotate zeroRs
        ⟨none, some [1]⟩ initState).1 ≠ 400 :=
  ⟨rfl, by decide⟩

/-- C7 amended: the bare 400 `{status:"error"}` response is produced
exactly when the request parses to a non-busy channel, carries a file,
and `cv2.imdecode` fails on it (an undecodable image); a missing or
invalid `channel_id` is instead caught by the `except` clause and yields
the 500 `{status:"error", message}` response, like engine and unexpected
failures. -/
theorem C7_amended
    (imdecode : List Nat → Option Img)
    (predict : Img → Except String (List (List BoxRaw)))
    (imencode : Img → Except String (List Nat))
    (draw_boxes : Img → List Detection → Img)
    (rs : Nat → Nat)
    (req : DetectRequest) (s : ServerState) :
    ((detect imdecode predict imencode draw_boxes rs req s).1 =
        DetectResponse.errorBadImage ↔
      ∃ cid fb, req.camera_id = some cid ∧ s.camera_locks cid = false ∧
        req.file = some fb ∧ imdecode fb = none) ∧
    (req.camera_id = none →
      statusCode (detect imdecode predict imencode draw_boxes rs req s).1 = 500) := by
  refine ⟨⟨?_, ?_⟩, ?_⟩
  · intro hbad
    cases hc : req.camera_id with
    | none => simp [detect, hc] at hbad
    | some cid =>
        cases hb : s.camera_locks cid with
        | true => simp [detect, hc, hb] at hbad
        | false =>
            cases hf : req.file with
            | none => simp [detect, hc, hb, hf] at hbad
            | some fb =>
                cases hd : imdecode fb with
                | none => exact ⟨cid, fb, rfl, hb, rfl, hd⟩
                | some img =>
                    cases hp : predict img with
                    | error msg => simp [detect, hc, hb, hf, hd, hp] at hbad
                    | ok results =>
                        cases he : imencode (draw_boxes img (mkDetections rs results)) with
                        | error msg => simp [detect, hc, hb, hf, hd, hp, he] at hbad
                        | ok buf => simp [detect, hc, hb, hf, hd, hp, he] at hbad
  · rintro ⟨cid, fb, hc, hb, hf, hd⟩
    simp [detect, hc, hb, hf, hd]
  · intro hn
    simp [detect, hn, statusCode]

theorem C7_witness :
    (detect noImdecode noBoxes constEncode idAnnotate zeroRs
        ⟨some 1, some [0]⟩ initState).1 = DetectResponse.errorBadImage ∧
    statusCode (detect idImdecode noBoxes constEncode idAnnotate zeroRs
        ⟨none, some [0]⟩ initState).1 = 500 := by
  constructor
  · exact (C7_amended noImdecode noBoxes constEncode idAnnotate zeroRs
      ⟨some 1, some [0]⟩ initState).1.mpr ⟨1, [0], rfl, rfl, rfl, rfl⟩
  · exact (C7_amended idImdecode noBoxes constEncode idAnnotate zeroRs
      ⟨none, some [0]⟩ initState).2 rfl

/-- C10: every id ever inserted into `unique_rock_ids` comes from
`random.randint(1000, 9999)` (lines 88-89), so if the id set is within
`[1000, 9999]` before a `detect` call it still is afterwards, and its
size — the `/stats` `total_rocks` value — can never exceed 9000, the size
of that range. -/
theorem C10_id_range
    (imdecode : List Nat → Option Img)
    (predict : Img → Except String (List (List BoxRaw)))
    (imencode : Img → Except String (List Nat))
    (draw_boxes : Img → List Detection → Img)
    (rs : Nat → Nat)
    (req : DetectRequest) (s : ServerState)
    (hs : s.unique_rock_ids ⊆ Finset.Icc 1000 9999) :
    (detect imdecode predict imencode draw_boxes rs req s).2.unique_rock_ids ⊆
      Finset.Icc 1000 9999 ∧
    count (detect imdecode predict imencode draw_boxes rs req s).2.unique_rock_ids ≤
      9000 := by
  have hsub : (detect imdecode predict imencode draw_boxes rs req s).2.unique_rock_ids ⊆
      Finset.Icc 1000 9999 := by
    refine (detect_ids_subset imdecode predict imencode draw_boxes rs req s).trans ?_
    exact Finset.union_subset hs (Finset.Subset.refl _)
  refine ⟨hsub, ?_⟩
  have hcard := Finset.card_le_card hsub
  simpa [count, Nat.card_Icc] using hcard

theorem C10_witness :
    initState.unique_rock_ids ⊆ Finset.Icc 1000 9999 ∧
    count (detect idImdecode oneBox constEncode idAnnotate zeroRs
        ⟨some 0, some [9]⟩ initState).2.unique_rock_ids ≤ 9000 := by
  have hs : initState.unique_rock_ids ⊆ Finset.Icc 1000 9999 := by
    simp [initState]
  exact ⟨hs, (C10_id_range idImdecode oneBox constEncode idAnnotate zeroRs
      ⟨some 0, some [9]⟩ initState hs).2⟩
